import Mathlib

/-!
Shallow embedding of the dispatch core of the solopole solar-tower simulator
(`src/app.py` and `src/app2.py`): the battery state-of-charge loop, the smart-grid
support loop, and the geometry (nameplate DC capacity) formula.

Power, energy and state-of-charge values are modelled as rationals (the Python
code computes with floats; the properties at stake are order/arithmetic facts
that hold over any ordered field). The power series of one month is a `List ℚ`;
a monthly table is a list of such columns, each processed independently exactly
as the Python loops iterate over the table columns. The geometry formula uses
`ℝ` because the mathematical constant pi appears in it.
-/

namespace Solopole

/-- Charge phase of one battery step, from `app2.py` lines 119-126 of
`simulate_battery`: given the current state of charge and the step energy,
if `energy > 0` compute `excess = max(0, energy - 0.5)`,
`charge = min(excess * charge_eff, capacity - soc)`, add `charge` to the soc and
subtract it from the grid-facing energy; otherwise leave both unchanged.
Returns `(new soc, net_energy)`. -/
def chargePhase (capacity_kwh charge_eff : ℚ) (soc energy : ℚ) : ℚ × ℚ :=
  if energy > 0 then
    let excess_energy := max 0 (energy - 1/2)
    let charge := min (excess_energy * charge_eff) (capacity_kwh - soc)
    (soc + charge, energy - charge)
  else
    (soc, energy)

/-- Discharge phase of one battery step, from `app2.py` lines 128-132 of
`simulate_battery`: if the net energy is below the 0.5 kWh reference load,
discharge `min(needed / discharge_eff, soc)` from storage and credit
`discharge * discharge_eff` back to the net energy. Returns `(new soc, net_energy)`. -/
def dischargePhase (discharge_eff : ℚ) (soc net_energy : ℚ) : ℚ × ℚ :=
  if net_energy < 1/2 then
    let needed := 1/2 - net_energy
    let discharge := min (needed / discharge_eff) soc
    (soc - discharge, net_energy + discharge * discharge_eff)
  else
    (soc, net_energy)

/-- One step of the battery loop body of `app2.py simulate_battery`
(lines 118-134): convert power to step energy, run the charge phase then the
discharge phase, and convert the net energy back to power. Returns
`(new soc, adjusted power)`. -/
def batteryStep (capacity_kwh charge_eff discharge_eff step_hours : ℚ)
    (soc power : ℚ) : ℚ × ℚ :=
  let energy := power * step_hours
  let c := chargePhase capacity_kwh charge_eff soc energy
  let d := dischargePhase discharge_eff c.1 c.2
  (d.1, d.2 / step_hours)

/-- Inner scan of `simulate_battery` over one month column, carrying the state
of charge from step to step and collecting the adjusted output. -/
def batteryRun (capacity_kwh charge_eff discharge_eff step_hours : ℚ) :
    ℚ → List ℚ → List ℚ
  | _, [] => []
  | soc, power :: rest =>
    let s := batteryStep capacity_kwh charge_eff discharge_eff step_hours soc power
    s.2 :: batteryRun capacity_kwh charge_eff discharge_eff step_hours s.1 rest

/-- The battery simulator of `app2.py` (lines 113-136) on one month column:
the scan starts with `soc = 0.0`. -/
def simulate_battery (capacity_kwh charge_eff discharge_eff step_hours : ℚ)
    (raw_output : List ℚ) : List ℚ :=
  batteryRun capacity_kwh charge_eff discharge_eff step_hours 0 raw_output

/-- The battery simulator applied column-wise to a monthly table, as the
`for month in raw_output.columns` loop does, each column with a fresh soc. -/
def simulate_battery_table (capacity_kwh charge_eff discharge_eff step_hours : ℚ)
    (raw_table : List (List ℚ)) : List (List ℚ) :=
  raw_table.map (simulate_battery capacity_kwh charge_eff discharge_eff step_hours)

/-- Trace of every state-of-charge value produced during the scan of one month
column: for each step, the soc right after the charge phase and the soc right
after the discharge phase, in scan order. -/
def batterySocs (capacity_kwh charge_eff discharge_eff step_hours : ℚ) :
    ℚ → List ℚ → List ℚ
  | _, [] => []
  | soc, power :: rest =>
    let c := chargePhase capacity_kwh charge_eff soc (power * step_hours)
    let d := dischargePhase discharge_eff c.1 c.2
    c.1 :: d.1 :: batterySocs capacity_kwh charge_eff discharge_eff step_hours d.1 rest

/-- One step of the smart-grid loop body of `app2.py simulate_smart_grid`
(lines 142-148), with `load_kw = 1.0`: if the power is below the load, add
`min(grid_limit_kw, load - power)`; otherwise pass the power through. -/
def gridStep (grid_limit_kw : ℚ) (power_kw : ℚ) : ℚ :=
  if power_kw < 1 then power_kw + min grid_limit_kw (1 - power_kw) else power_kw

/-- The smart-grid simulator of `app2.py` (lines 138-150) on one month column:
a stateless pass that appends the adjusted value of each step. -/
def simulate_smart_grid (grid_limit_kw : ℚ) : List ℚ → List ℚ
  | [] => []
  | power_kw :: rest => gridStep grid_limit_kw power_kw :: simulate_smart_grid grid_limit_kw rest

/-- The smart-grid simulator applied column-wise to a monthly table, as the
`for month in battery_output.columns` loop does. -/
def simulate_smart_grid_table (grid_limit_kw : ℚ) (battery_table : List (List ℚ)) :
    List (List ℚ) :=
  battery_table.map (simulate_smart_grid grid_limit_kw)

/-- One step of the inline battery loop at module level of `app.py`
(lines 93-104): identical arithmetic to `app2.py` but with the efficiencies
hardcoded to `0.95`, the step to `0.5` h, and no `if energy > 0` guard around
the charge computation. Returns `(new soc, adjusted power)`. -/
def appBatteryStep (battery_capacity_kwh : ℚ) (soc power : ℚ) : ℚ × ℚ :=
  let energy := power * (1/2)
  let excess := max 0 (energy - 1/2)
  let charge := min (excess * (19/20)) (battery_capacity_kwh - soc)
  let soc1 := soc + charge
  let net := energy - charge
  if net < 1/2 then
    let needed := 1/2 - net
    let discharge := min (needed / (19/20)) soc1
    (soc1 - discharge, (net + discharge * (19/20)) / (1/2))
  else
    (soc1, net / (1/2))

/-- Inner scan of the `app.py` battery loop over one month column. -/
def appBatteryRun (battery_capacity_kwh : ℚ) : ℚ → List ℚ → List ℚ
  | _, [] => []
  | soc, power :: rest =>
    let s := appBatteryStep battery_capacity_kwh soc power
    s.2 :: appBatteryRun battery_capacity_kwh s.1 rest

/-- The `app.py` battery simulation of one month column (lines 88-105):
the scan starts with `soc = 0.0`. -/
def appResultsBattery (battery_capacity_kwh : ℚ) (raw : List ℚ) : List ℚ :=
  appBatteryRun battery_capacity_kwh 0 raw

/-- Python `int()` conversion of a real value: truncation toward zero. -/
noncomputable def pyInt (x : ℝ) : ℤ := if 0 ≤ x then ⌊x⌋ else -⌊-x⌋

/-- Number of panels around the tower, from `app2.py create_arrays` line 45:
`int(np.ceil(np.pi * tower_diameter / panel_width))`. The `np.ceil` produces an
integer-valued float to which `int()` truncation is applied. -/
noncomputable def num_panels_circ (tower_diameter panel_width : ℝ) : ℤ :=
  pyInt ((⌈Real.pi * tower_diameter / panel_width⌉ : ℤ) : ℝ)

/-- Number of panel rows up the tower, from `app2.py create_arrays` line 46:
`int(tower_height / panel_height)`. -/
noncomputable def num_panels_height (tower_height panel_height : ℝ) : ℤ :=
  pyInt (tower_height / panel_height)

/-- Total panel area in square meters, from `app2.py create_arrays` line 47. -/
noncomputable def panel_area_total (tower_diameter tower_height panel_width panel_height : ℝ) : ℝ :=
  (num_panels_circ tower_diameter panel_width : ℝ) *
    (num_panels_height tower_height panel_height : ℝ) * panel_width * panel_height

/-- Nameplate DC capacity in kW, from `app2.py create_arrays` line 48:
`(panel_area_total * power_density) / 1000`. -/
noncomputable def total_dc_power_kw
    (tower_diameter tower_height panel_width panel_height power_density : ℝ) : ℝ :=
  panel_area_total tower_diameter tower_height panel_width panel_height *
    power_density / 1000

/-- The charge phase keeps the state of charge within `[0, capacity]`: the
intended charge is clamped by `min` against the remaining headroom, and it is
nonnegative because the excess is clamped by `max 0`. -/
theorem chargePhase_soc_bounds (capacity_kwh charge_eff soc energy : ℚ)
    (hce : 0 ≤ charge_eff) (h0 : 0 ≤ soc) (h1 : soc ≤ capacity_kwh) :
    0 ≤ (chargePhase capacity_kwh charge_eff soc energy).1 ∧
      (chargePhase capacity_kwh charge_eff soc energy).1 ≤ capacity_kwh := by
  unfold chargePhase
  split
  · have hchg : 0 ≤ min (max 0 (energy - 1/2) * charge_eff) (capacity_kwh - soc) :=
      le_min (mul_nonneg (le_max_left 0 _) hce) (by linarith)
    have hhead := min_le_right (max 0 (energy - 1/2) * charge_eff) (capacity_kwh - soc)
    constructor
    · show 0 ≤ soc + min (max 0 (energy - 1/2) * charge_eff) (capacity_kwh - soc)
      linarith
    · show soc + min (max 0 (energy - 1/2) * charge_eff) (capacity_kwh - soc) ≤ capacity_kwh
      linarith
  · exact ⟨h0, h1⟩

/-- The discharge phase keeps the state of charge within `[0, capacity]`: the
intended discharge is clamped by `min` against the available soc, and it is
nonnegative because the needed amount is positive in the discharge branch. -/
theorem dischargePhase_soc_bounds (capacity_kwh discharge_eff soc net_energy : ℚ)
    (hde : 0 < discharge_eff) (h0 : 0 ≤ soc) (h1 : soc ≤ capacity_kwh) :
    0 ≤ (dischargePhase discharge_eff soc net_energy).1 ∧
      (dischargePhase discharge_eff soc net_energy).1 ≤ capacity_kwh := by
  unfold dischargePhase
  split
  · rename_i hlt
    have hnn : 0 ≤ (1/2 - net_energy) / discharge_eff :=
      div_nonneg (by linarith) hde.le
    have hdis : 0 ≤ min ((1/2 - net_energy) / discharge_eff) soc := le_min hnn h0
    have hsoc := min_le_right ((1/2 - net_energy) / discharge_eff) soc
    constructor
    · show 0 ≤ soc - min ((1/2 - net_energy) / discharge_eff) soc
      linarith
    · show soc - min ((1/2 - net_energy) / discharge_eff) soc ≤ capacity_kwh
      linarith
  · exact ⟨h0, h1⟩

/-- One full battery step keeps the state of charge within `[0, capacity]`. -/
theorem batteryStep_soc_bounds (capacity_kwh charge_eff discharge_eff step_hours soc power : ℚ)
    (hce : 0 ≤ charge_eff) (hde : 0 < discharge_eff)
    (h0 : 0 ≤ soc) (h1 : soc ≤ capacity_kwh) :
    0 ≤ (batteryStep capacity_kwh charge_eff discharge_eff step_hours soc power).1 ∧
      (batteryStep capacity_kwh charge_eff discharge_eff step_hours soc power).1 ≤ capacity_kwh := by
  unfold batteryStep
  have hc := chargePhase_soc_bounds capacity_kwh charge_eff soc (power * step_hours) hce h0 h1
  exact dischargePhase_soc_bounds capacity_kwh discharge_eff _ _ hde hc.1 hc.2

/-- Every soc value in the scan trace of one month column lies in `[0, capacity]`,
for any starting soc already in that range. -/
theorem batterySocs_mem_bounds (capacity_kwh charge_eff discharge_eff step_hours : ℚ)
    (hce : 0 ≤ charge_eff) (hde : 0 < discharge_eff) :
    ∀ (powers : List ℚ) (soc : ℚ), 0 ≤ soc → soc ≤ capacity_kwh →
      ∀ s ∈ batterySocs capacity_kwh charge_eff discharge_eff step_hours soc powers,
        0 ≤ s ∧ s ≤ capacity_kwh := by
  intro powers
  induction powers with
  | nil =>
    intro soc _ _ s hs
    simp [batterySocs] at hs
  | cons p rest ih =>
    intro soc h0 h1 s hs
    have hc := chargePhase_soc_bounds capacity_kwh charge_eff soc (p * step_hours) hce h0 h1
    have hd := dischargePhase_soc_bounds capacity_kwh discharge_eff
      (chargePhase capacity_kwh charge_eff soc (p * step_hours)).1
      (chargePhase capacity_kwh charge_eff soc (p * step_hours)).2 hde hc.1 hc.2
    simp only [batterySocs, List.mem_cons] at hs
    rcases hs with rfl | rfl | hs
    · exact hc
    · exact hd
    · exact ih _ hd.1 hd.2 s hs

/-- C1: for every input power series, every battery configuration with
`capacity_kwh ≥ 0` and efficiencies in `(0,1]`, and every step of the battery
simulation scan within a month, the state of charge satisfies
`0 ≤ soc ≤ capacity_kwh` at every point (both right after the charge phase and
right after the discharge phase of every step); the bounds follow from the
`min` clamps at the charge and discharge steps alone — the embedding contains
no post-hoc clamping. -/
theorem soc_invariant_in_scan (capacity_kwh charge_eff discharge_eff step_hours : ℚ)
    (powers : List ℚ) (hcap : 0 ≤ capacity_kwh)
    (hce0 : 0 < charge_eff) (hce1 : charge_eff ≤ 1)
    (hde0 : 0 < discharge_eff) (hde1 : discharge_eff ≤ 1) :
    ∀ soc ∈ batterySocs capacity_kwh charge_eff discharge_eff step_hours 0 powers,
      0 ≤ soc ∧ soc ≤ capacity_kwh :=
  batterySocs_mem_bounds capacity_kwh charge_eff discharge_eff step_hours
    hce0.le hde0 powers 0 le_rfl hcap

/-- Witness for C1 at capacity 1, efficiencies 0.95, step 0.5 h, series `[2]`:
the soc reached after charging on that step is `19/40`, and it lies in `[0, 1]`. -/
theorem soc_invariant_in_scan_witness : 0 ≤ (19/40 : ℚ) ∧ (19/40 : ℚ) ≤ 1 :=
  soc_invariant_in_scan 1 (19/20) (19/20) (1/2) [2] (by norm_num) (by norm_num)
    (by norm_num) (by norm_num) (by norm_num) (19/40)
    (by norm_num [batterySocs, chargePhase, dischargePhase])

/-- C4: on the scenario with time step 0.5 h, reference load 0.5 kWh per step,
raw series `[0, 2, 0, 2]` kW, capacity 1 kWh and both efficiencies 1, the
battery simulator produces `[0, 1, 1, 1]` kW. -/
theorem battery_scenario_series :
    simulate_battery 1 1 1 (1/2) [0, 2, 0, 2] = [0, 1, 1, 1] := by
  norm_num [simulate_battery, batteryRun, batteryStep, chargePhase, dischargePhase]

/-- C5: the grid support simulator is the stateless per-step map sending power
below the load 1.0 to `power + min(limit, 1 - power)` and passing other values
through unchanged, and on the scenario with limit 0.3 it maps `[0.5, 1.2]` to
`[0.8, 1.2]`. -/
theorem grid_stateless_map_and_scenario :
    (∀ (grid_limit_kw : ℚ) (powers : List ℚ),
        simulate_smart_grid grid_limit_kw powers =
          powers.map (fun p => if p < 1 then p + min grid_limit_kw (1 - p) else p)) ∧
      simulate_smart_grid (3/10) [1/2, 6/5] = [4/5, 6/5] := by
  constructor
  · intro g powers
    induction powers with
    | nil => rfl
    | cons p rest ih => simp [simulate_smart_grid, gridStep, ih]
  · norm_num [simulate_smart_grid, gridStep]

/-- With zero capacity and a zero state of charge, the charge phase stores
nothing: the headroom is `0 - 0 = 0`, so the `min` clamp forces the charge to 0. -/
theorem chargePhase_zero_cap (charge_eff energy : ℚ) (hce : 0 ≤ charge_eff) :
    chargePhase 0 charge_eff 0 energy = (0, energy) := by
  have hx : 0 ≤ max 0 (energy - 1/2) * charge_eff :=
    mul_nonneg (le_max_left 0 _) hce
  unfold chargePhase
  split
  · have h00 : min (max 0 (energy - 1/2) * charge_eff) (0:ℚ) = 0 := min_eq_right hx
    simp only [sub_zero, h00, add_zero]
  · rfl

/-- With a zero state of charge, the discharge phase draws nothing: the `min`
clamp against the available soc forces the discharge to 0. -/
theorem dischargePhase_zero_soc (discharge_eff net_energy : ℚ) (hde : 0 < discharge_eff) :
    dischargePhase discharge_eff 0 net_energy = (0, net_energy) := by
  unfold dischargePhase
  split
  · rename_i hlt
    have hx : 0 ≤ (1/2 - net_energy) / discharge_eff := div_nonneg (by linarith) hde.le
    have h00 : min ((1/2 - net_energy) / discharge_eff) (0:ℚ) = 0 := min_eq_right hx
    simp only [h00, sub_zero, zero_mul, add_zero]
  · rfl

/-- With zero capacity a battery step passes its power through unchanged and
leaves the soc at 0. -/
theorem batteryStep_zero_cap (charge_eff discharge_eff step_hours power : ℚ)
    (hce : 0 ≤ charge_eff) (hde : 0 < discharge_eff) (hsh : step_hours ≠ 0) :
    batteryStep 0 charge_eff discharge_eff step_hours 0 power = (0, power) := by
  simp only [batteryStep, chargePhase_zero_cap charge_eff (power * step_hours) hce]
  simp only [dischargePhase_zero_soc discharge_eff (power * step_hours) hde]
  rw [Prod.mk.injEq]
  refine ⟨rfl, ?_⟩
  rw [mul_div_assoc, div_self hsh, mul_one]

/-- With zero capacity the whole battery scan is the identity on the column. -/
theorem batteryRun_zero_cap (charge_eff discharge_eff step_hours : ℚ)
    (hce : 0 ≤ charge_eff) (hde : 0 < discharge_eff) (hsh : step_hours ≠ 0) :
    ∀ powers : List ℚ, batteryRun 0 charge_eff discharge_eff step_hours 0 powers = powers := by
  intro powers
  induction powers with
  | nil => rfl
  | cons p rest ih =>
    simp only [batteryRun, batteryStep_zero_cap charge_eff discharge_eff step_hours p hce hde hsh]
    exact congrArg (List.cons p) ih

/-- C6: with `capacity_kwh = 0` the battery simulator returns its input series
exactly: no charge fits the zero headroom, so the soc stays at 0 and no
discharge is ever possible. -/
theorem battery_zero_capacity_identity (charge_eff discharge_eff step_hours : ℚ)
    (powers : List ℚ) (hce : 0 < charge_eff) (hde : 0 < discharge_eff)
    (hsh : 0 < step_hours) :
    simulate_battery 0 charge_eff discharge_eff step_hours powers = powers :=
  batteryRun_zero_cap charge_eff discharge_eff step_hours hce.le hde hsh.ne' powers

/-- Witness for C6 with efficiencies 0.95, step 0.5 h and series `[3, 0, 1]`. -/
theorem battery_zero_capacity_identity_witness :
    simulate_battery 0 (19/20) (19/20) (1/2) [3, 0, 1] = [3, 0, 1] :=
  battery_zero_capacity_identity (19/20) (19/20) (1/2) [3, 0, 1]
    (by norm_num) (by norm_num) (by norm_num)

/-- Pointwise, the grid step output is at least the load 1.0 whenever the
support limit covers the deficit of that step. -/
theorem gridStep_ge_one (grid_limit_kw power_kw : ℚ)
    (h : power_kw < 1 → 1 - power_kw ≤ grid_limit_kw) :
    1 ≤ gridStep grid_limit_kw power_kw := by
  unfold gridStep
  split
  · rename_i hlt
    rw [min_eq_right (h hlt)]
    linarith
  · rename_i hge
    linarith [not_lt.mp hge]

/-- After one grid pass over a column whose deficits are all covered by the
support limit, every output power is at least the load. -/
theorem simulate_smart_grid_mem_ge_one (grid_limit_kw : ℚ) :
    ∀ powers : List ℚ, (∀ p ∈ powers, p < 1 → 1 - p ≤ grid_limit_kw) →
      ∀ q ∈ simulate_smart_grid grid_limit_kw powers, 1 ≤ q := by
  intro powers
  induction powers with
  | nil =>
    intro _ q hq
    simp [simulate_smart_grid] at hq
  | cons p rest ih =>
    intro h q hq
    rw [simulate_smart_grid] at hq
    rcases List.mem_cons.mp hq with rfl | hq
    · exact gridStep_ge_one grid_limit_kw p (h p (List.mem_cons_self p rest))
    · exact ih (fun x hx => h x (List.mem_cons_of_mem p hx)) q hq

/-- A grid pass over a column whose powers are all at least the load is the
identity on that column. -/
theorem simulate_smart_grid_id_of_ge_one (grid_limit_kw : ℚ) :
    ∀ powers : List ℚ, (∀ p ∈ powers, 1 ≤ p) →
      simulate_smart_grid grid_limit_kw powers = powers := by
  intro powers
  induction powers with
  | nil => intro _; rfl
  | cons p rest ih =>
    intro h
    rw [simulate_smart_grid, ih (fun x hx => h x (List.mem_cons_of_mem p hx))]
    unfold gridStep
    rw [if_neg (not_lt.mpr (h p (List.mem_cons_self p rest)))]

/-- C2 counterexample: with support limit 0.3 and the single-column table
`[[0.5]]`, one pass yields `[[0.8]]`, which is still below the load, and a
second pass yields `[[1.0]]`: the grid support simulator is not idempotent on
its own output. -/
theorem grid_idempotence_counterexample :
    simulate_smart_grid_table (3/10) (simulate_smart_grid_table (3/10) [[1/2]]) ≠
      simulate_smart_grid_table (3/10) [[1/2]] := by
  norm_num [simulate_smart_grid_table, simulate_smart_grid, gridStep, min_def]

/-- C2 amended: the grid support simulator is idempotent on every table in which
the support limit covers the deficit of every step that is below the load: the
first pass raises every such step exactly to the load, so after one pass every
power is at least the load and a second pass adds no further support. Without
that condition idempotence fails: a step whose deficit exceeds the limit is
still below the load after one pass and receives further support on the next. -/
theorem grid_idempotent_when_limit_covers_deficits (grid_limit_kw : ℚ)
    (table : List (List ℚ))
    (hcover : ∀ col ∈ table, ∀ p ∈ col, p < 1 → 1 - p ≤ grid_limit_kw) :
    simulate_smart_grid_table grid_limit_kw
        (simulate_smart_grid_table grid_limit_kw table) =
      simulate_smart_grid_table grid_limit_kw table := by
  unfold simulate_smart_grid_table
  rw [List.map_map]
  refine List.map_congr_left ?_
  intro col hcol
  simp only [Function.comp_apply]
  exact simulate_smart_grid_id_of_ge_one grid_limit_kw _
    (simulate_smart_grid_mem_ge_one grid_limit_kw col (hcover col hcol))

/-- Witness for the amended C2: limit 0.3 on the table `[[0.9]]`, whose only
deficit 0.1 is covered by the limit. -/
theorem grid_idempotent_when_limit_covers_deficits_witness :
    simulate_smart_grid_table (3/10) (simulate_smart_grid_table (3/10) [[9/10]]) =
      simulate_smart_grid_table (3/10) [[9/10]] :=
  grid_idempotent_when_limit_covers_deficits (3/10) [[9/10]] (by
    intro col hcol p hp hlt
    simp only [List.mem_cons, List.not_mem_nil, or_false] at hcol hp
    subst hcol
    simp only [List.mem_cons, List.not_mem_nil, or_false] at hp
    subst hp
    norm_num)

/-- C3 counterexample: at capacity 10, charge efficiency 0.5, soc 0 and step
energy 1.5, the raw excess is 1.0; the code stores `excess * eff = 0.5` in the
battery and deducts that same 0.5 from the grid-facing energy, leaving a net of
1.0, whereas deducting the pre-efficiency draw (the full raw excess converted,
1.0) would leave a net of 0.5. -/
theorem charge_net_counterexample :
    (chargePhase 10 (1/2) 0 (3/2)).2 ≠ 3/2 - max 0 ((3/2 : ℚ) - 1/2) := by
  norm_num [chargePhase, max_def, min_def]

/-- C3 amended: for every charge step with positive energy and nonzero charging,
the grid-facing net energy after charging equals the step energy minus the
post-efficiency charge amount `min(excess * charge_eff, capacity - soc)` — the
very amount stored in the battery — so the soc increment equals the net
decrement exactly: the efficiency factor is applied before the draw is fixed,
and the unconverted part of the excess remains in the grid-facing net rather
than being absorbed by the battery. -/
theorem charge_net_energy_deduction (capacity_kwh charge_eff soc energy : ℚ)
    (hpos : 0 < energy)
    (hcharging : min (max 0 (energy - 1/2) * charge_eff) (capacity_kwh - soc) ≠ 0) :
    (chargePhase capacity_kwh charge_eff soc energy).2 =
        energy - min (max 0 (energy - 1/2) * charge_eff) (capacity_kwh - soc) ∧
      (chargePhase capacity_kwh charge_eff soc energy).1 - soc =
        energy - (chargePhase capacity_kwh charge_eff soc energy).2 := by
  unfold chargePhase
  split
  · constructor
    · rfl
    · show soc + min (max 0 (energy - 1/2) * charge_eff) (capacity_kwh - soc) - soc =
        energy - (energy - min (max 0 (energy - 1/2) * charge_eff) (capacity_kwh - soc))
      ring
  · rename_i hneg
    exact absurd hpos hneg

/-- Witness for the amended C3 at capacity 10, charge efficiency 0.5, soc 0 and
step energy 1.5: the stored charge is 0.5 and the net energy is 1.0. -/
theorem charge_net_energy_deduction_witness :
    (chargePhase 10 (1/2) 0 (3/2)).2 =
        3/2 - min (max 0 ((3/2 : ℚ) - 1/2) * (1/2)) (10 - 0) ∧
      (chargePhase 10 (1/2) 0 (3/2)).1 - 0 = 3/2 - (chargePhase 10 (1/2) 0 (3/2)).2 :=
  charge_net_energy_deduction 10 (1/2) 0 (3/2) (by norm_num)
    (by norm_num [max_def, min_def])

/-- C7: with `support_limit_kw = 0` the grid support simulator is the identity
on every input power series. -/
theorem grid_zero_limit_identity :
    ∀ powers : List ℚ, simulate_smart_grid 0 powers = powers := by
  intro powers
  induction powers with
  | nil => rfl
  | cons p rest ih =>
    rw [simulate_smart_grid, ih]
    unfold gridStep
    split
    · rename_i hlt
      rw [min_eq_left (by linarith), add_zero]
    · rfl

/-- With positive step energy the charge phase takes its charging branch,
unfolded to an explicit pair. -/
theorem chargePhase_pos (capacity_kwh charge_eff soc energy : ℚ) (h : 0 < energy) :
    chargePhase capacity_kwh charge_eff soc energy =
      (soc + min (max 0 (energy - 1/2) * charge_eff) (capacity_kwh - soc),
        energy - min (max 0 (energy - 1/2) * charge_eff) (capacity_kwh - soc)) := by
  unfold chargePhase
  rw [if_pos h]

/-- When the net energy already meets the reference load, the discharge phase
changes nothing. -/
theorem dischargePhase_ge (discharge_eff soc net_energy : ℚ) (h : ¬net_energy < 1/2) :
    dischargePhase discharge_eff soc net_energy = (soc, net_energy) := by
  unfold dischargePhase
  rw [if_neg h]

/-- One battery step, unfolded to the composition of its two phases. -/
theorem batteryStep_eq_phases (capacity_kwh charge_eff discharge_eff step_hours soc power : ℚ) :
    batteryStep capacity_kwh charge_eff discharge_eff step_hours soc power =
      ((dischargePhase discharge_eff
          (chargePhase capacity_kwh charge_eff soc (power * step_hours)).1
          (chargePhase capacity_kwh charge_eff soc (power * step_hours)).2).1,
        (dischargePhase discharge_eff
          (chargePhase capacity_kwh charge_eff soc (power * step_hours)).1
          (chargePhase capacity_kwh charge_eff soc (power * step_hours)).2).2 / step_hours) :=
  rfl

/-- When the step energy strictly exceeds the 0.5 kWh reference load and the
state of charge is in range, a battery step emits at most the raw power: the
deducted charge is nonnegative and the net never falls below the load, so no
discharge credit is added. -/
theorem batteryStep_output_le (capacity_kwh charge_eff discharge_eff step_hours soc power : ℚ)
    (hce0 : 0 ≤ charge_eff) (hce1 : charge_eff ≤ 1) (hsh : 0 < step_hours)
    (h0 : 0 ≤ soc) (h1 : soc ≤ capacity_kwh) (hgen : 1/2 < power * step_hours) :
    (batteryStep capacity_kwh charge_eff discharge_eff step_hours soc power).2 ≤ power := by
  have hpos : 0 < power * step_hours := by linarith
  have hkey := chargePhase_pos capacity_kwh charge_eff soc (power * step_hours) hpos
  have hchg0 : 0 ≤ min (max 0 (power * step_hours - 1/2) * charge_eff) (capacity_kwh - soc) :=
    le_min (mul_nonneg (le_max_left 0 _) hce0) (by linarith)
  have hchg_le : min (max 0 (power * step_hours - 1/2) * charge_eff) (capacity_kwh - soc) ≤
      power * step_hours - 1/2 := by
    refine le_trans (min_le_left _ _) ?_
    rw [max_eq_right (by linarith : (0:ℚ) ≤ power * step_hours - 1/2)]
    exact mul_le_of_le_one_right (by linarith) hce1
  have hnet : ¬(chargePhase capacity_kwh charge_eff soc (power * step_hours)).2 < 1/2 := by
    rw [hkey]
    dsimp only
    linarith
  rw [batteryStep_eq_phases, dischargePhase_ge discharge_eff _ _ hnet]
  dsimp only
  rw [hkey]
  dsimp only
  rw [div_le_iff₀ hsh]
  linarith

/-- Over a constant column whose step energy strictly exceeds the reference
load, the battery scan emits at most the raw power at every step, so the column
sum never grows, for any starting soc within range. -/
theorem batteryRun_sum_le (capacity_kwh charge_eff discharge_eff step_hours c : ℚ)
    (hce0 : 0 ≤ charge_eff) (hce1 : charge_eff ≤ 1) (hde : 0 < discharge_eff)
    (hsh : 0 < step_hours) (hgen : 1/2 < c * step_hours) :
    ∀ (n : ℕ) (soc : ℚ), 0 ≤ soc → soc ≤ capacity_kwh →
      (batteryRun capacity_kwh charge_eff discharge_eff step_hours soc
          (List.replicate n c)).sum ≤ (List.replicate n c : List ℚ).sum := by
  intro n
  induction n with
  | zero =>
    intro soc _ _
    simp [batteryRun]
  | succ m ih =>
    intro soc h0 h1
    rw [List.replicate_succ]
    simp only [batteryRun, List.sum_cons]
    have hout := batteryStep_output_le capacity_kwh charge_eff discharge_eff step_hours soc c
      hce0 hce1 hsh h0 h1 hgen
    have hb := batteryStep_soc_bounds capacity_kwh charge_eff discharge_eff step_hours soc c
      hce0 hde h0 h1
    have hrest := ih _ hb.1 hb.2
    linarith

/-- C8: for a month of constant generation whose step energy is strictly above
the 0.5 kWh reference load, and a battery configuration with nonnegative
capacity and efficiencies in `(0, 1]`, the total battery-adjusted energy over
the month is at most the total raw energy over the month. -/
theorem battery_lossy_energy_bound (capacity_kwh charge_eff discharge_eff step_hours c : ℚ)
    (n : ℕ) (hcap : 0 ≤ capacity_kwh)
    (hce0 : 0 < charge_eff) (hce1 : charge_eff ≤ 1)
    (hde0 : 0 < discharge_eff) (hde1 : discharge_eff ≤ 1)
    (hsh : 0 < step_hours) (hgen : 1/2 < c * step_hours) :
    (simulate_battery capacity_kwh charge_eff discharge_eff step_hours
        (List.replicate n c)).sum * step_hours ≤
      (List.replicate n c : List ℚ).sum * step_hours := by
  have h := batteryRun_sum_le capacity_kwh charge_eff discharge_eff step_hours c
    hce0.le hce1 hde0 hsh hgen n 0 le_rfl hcap
  exact mul_le_mul_of_nonneg_right h hsh.le

/-- Witness for C8 at capacity 1, efficiencies 0.95, step 0.5 h and two steps of
constant 2 kW generation. -/
theorem battery_lossy_energy_bound_witness :
    (simulate_battery 1 (19/20) (19/20) (1/2) (List.replicate 2 2)).sum * (1/2) ≤
      (List.replicate 2 (2:ℚ) : List ℚ).sum * (1/2) :=
  battery_lossy_energy_bound 1 (19/20) (19/20) (1/2) 2 2 (by norm_num) (by norm_num)
    (by norm_num) (by norm_num) (by norm_num) (by norm_num) (by norm_num)

/-- C9: for positive tower diameter, tower height, panel width, panel height and
power density, the nameplate DC capacity of the geometry model equals
`ceil(pi * diameter / panel_width) * floor(height / panel_height) * panel_width
* panel_height * power_density / 1000`: the `int()` truncations coincide with
the ceiling and floor because their arguments are nonnegative. -/
theorem capacity_formula (d h w ph pd : ℝ) (hd : 0 < d) (hh : 0 < h) (hw : 0 < w)
    (hph : 0 < ph) (hpd : 0 < pd) :
    total_dc_power_kw d h w ph pd =
      (⌈Real.pi * d / w⌉ : ℝ) * (⌊h / ph⌋ : ℝ) * w * ph * pd / 1000 := by
  have hpi : 0 < Real.pi * d / w := div_pos (mul_pos Real.pi_pos hd) hw
  have hceil : (0:ℝ) ≤ ((⌈Real.pi * d / w⌉ : ℤ) : ℝ) := by
    exact_mod_cast (Int.ceil_pos.mpr hpi).le
  have hfrac : (0:ℝ) ≤ h / ph := (div_pos hh hph).le
  unfold total_dc_power_kw panel_area_total num_panels_circ num_panels_height pyInt
  rw [if_pos hceil, if_pos hfrac, Int.floor_intCast]

/-- Witness for C9 at the tower dimensions of the repository: diameter 0.6 m,
height 12 m, panels 0.1 m by 1.0 m, power density 175 W per square meter; the
capacity is `19 * 12 * 0.1 * 1.0 * 175 / 1000 = 3.99` kW. -/
theorem capacity_formula_witness :
    total_dc_power_kw (3/5) 12 (1/10) 1 175 = 399/100 := by
  have h6 : Real.pi * (3/5) / (1/10) = 6 * Real.pi := by ring
  have h19 : ⌈Real.pi * ((3:ℝ)/5) / (1/10)⌉ = 19 := by
    rw [h6, Int.ceil_eq_iff]
    constructor
    · have := Real.pi_gt_three
      push_cast
      nlinarith
    · have := Real.pi_lt_d2
      push_cast
      nlinarith
  have h12 : ⌊(12:ℝ) / 1⌋ = 12 := by norm_num
  rw [capacity_formula (3/5) 12 (1/10) 1 175 (by norm_num) (by norm_num) (by norm_num)
    (by norm_num) (by norm_num), h19, h12]
  norm_num

/-- Under the soc invariant, one step of the inline `app.py` battery loop equals
one step of `app2.py simulate_battery` at efficiencies 0.95 and step 0.5 h: when
the step energy is nonpositive the excess is clamped to 0 and the charge clamp
yields 0 given nonnegative headroom, so the missing energy guard of `app.py`
never changes the arithmetic. -/
theorem appBatteryStep_eq_batteryStep (capacity_kwh soc power : ℚ)
    (h0 : 0 ≤ soc) (h1 : soc ≤ capacity_kwh) :
    appBatteryStep capacity_kwh soc power =
      batteryStep capacity_kwh (19/20) (19/20) (1/2) soc power := by
  by_cases hE : 0 < power * (1/2)
  · simp only [appBatteryStep, batteryStep, chargePhase, dischargePhase]
    rw [if_pos hE]
    split <;> rfl
  · have hE2 : power * (1/2) ≤ 0 := not_lt.mp hE
    have hmax : max 0 (power * (1/2) - 1/2) = (0:ℚ) := max_eq_left (by linarith)
    simp only [appBatteryStep, batteryStep, chargePhase, dischargePhase]
    rw [if_neg hE, hmax, zero_mul, min_eq_left (by linarith : (0:ℚ) ≤ capacity_kwh - soc),
      add_zero, sub_zero]
    dsimp only
    split_ifs <;> rfl

/-- Under the soc invariant, the two scans coincide step by step. -/
theorem appBatteryRun_eq_batteryRun (capacity_kwh : ℚ) (hcap : 0 ≤ capacity_kwh) :
    ∀ (powers : List ℚ) (soc : ℚ), 0 ≤ soc → soc ≤ capacity_kwh →
      appBatteryRun capacity_kwh soc powers =
        batteryRun capacity_kwh (19/20) (19/20) (1/2) soc powers := by
  intro powers
  induction powers with
  | nil =>
    intro soc _ _
    rfl
  | cons p rest ih =>
    intro soc h0 h1
    have hstep := appBatteryStep_eq_batteryStep capacity_kwh soc p h0 h1
    have hb := batteryStep_soc_bounds capacity_kwh (19/20) (19/20) (1/2) soc p
      (by norm_num) (by norm_num) h0 h1
    simp only [appBatteryRun, batteryRun, hstep]
    rw [ih _ hb.1 hb.2]

/-- C10: for every nonnegative capacity and every input power series, the inline
battery loop of `app.py` and `simulate_battery` of `app2.py` called with charge
and discharge efficiency 0.95 and step 0.5 h produce identical output series:
the extra guard of `app2.py` on positive step energy never changes the result,
because with nonpositive energy the excess is 0 and the charge clamp yields 0
given `0 ≤ soc ≤ capacity`. -/
theorem app_battery_equiv (capacity_kwh : ℚ) (powers : List ℚ) (hcap : 0 ≤ capacity_kwh) :
    appResultsBattery capacity_kwh powers =
      simulate_battery capacity_kwh (19/20) (19/20) (1/2) powers :=
  appBatteryRun_eq_batteryRun capacity_kwh hcap powers 0 le_rfl hcap

/-- Witness for C10 at capacity 1 on the series `[0, 2]`. -/
theorem app_battery_equiv_witness :
    appResultsBattery 1 [0, 2] = simulate_battery 1 (19/20) (19/20) (1/2) [0, 2] :=
  app_battery_equiv 1 [0, 2] (by norm_num)

end Solopole
